import Mathlib

/-!
Verification of the system-metrics collector (daemon.py, mcp_tools.py,
sys_tools.py) against its design specification.

The Python code is shallowly embedded: dictionaries become structures with
`Option` fields (an absent key is `none`; subscripting an absent key raises
`KeyError`, modelled with `Except`), the `deque(maxlen=100)` ring buffer
becomes a `List` with an explicit trimming append, file-system state becomes
an explicit `FileState`, and numbers are `Rat`/`Int`/`Nat`.
-/

namespace SysMetrics

/-- Python exceptions that the analysed functions can raise. -/
inductive PyExn where
  | keyError (key : String)
  | osError
  deriving DecidableEq, Repr

/-- Truthiness of a Python optional-integer argument: `None` and `0` are
falsy, every other integer is truthy. -/
def truthyInt : Option Int → Bool
  | none => false
  | some v => v != 0

/-- Python slice `lst[-n:]` for `n ≥ 0`: for `n = 0` the index is `-0 = 0`,
so the slice is the whole list; otherwise it is the last `min n len`
elements. -/
def pyTail (n : Nat) (l : List α) : List α :=
  if n = 0 then l else l.drop (l.length - n)

/-- Python dict subscript `d[key]`: raises `KeyError` when the key is
absent. -/
def getKey (v : Option α) (key : String) : Except PyExn α :=
  match v with
  | some a => Except.ok a
  | none => Except.error (PyExn.keyError key)

/-- `Except.ok`-ness as a Bool (for decidable statements). -/
def isOkE : Except PyExn α → Bool
  | Except.ok _ => true
  | Except.error _ => false

/-- One entry of `top_cpu_processes` (sys_tools.top_cpu). -/
structure ProcCpu where
  pid : Int
  name : String
  cpu_percent : Rat
  deriving DecidableEq, Repr

/-- One entry of `top_mem_processes` (sys_tools.top_mem). -/
structure ProcMem where
  pid : Int
  name : String
  rss_mb : Rat
  vms_mb : Rat
  deriving DecidableEq, Repr

/-- The `memory` sub-dict of a snapshot. -/
structure MemInfo where
  total_gb : Rat
  available_gb : Rat
  percent_used : Rat
  deriving DecidableEq, Repr

/-- A snapshot dict as produced by sys_tools.get_snapshot. `timestamp` and
`hostname` are always present; the metric fields are absent (`none`) in a
degraded snapshot, which instead carries `error`. `disk_usage` is omitted:
no analysed function reads it. -/
structure Snapshot where
  timestamp : Rat
  hostname : String
  cpu_percent : Option Rat
  memory : Option MemInfo
  load_avg : Option (Rat × Rat × Rat)
  top_cpu_processes : Option (List ProcCpu)
  top_mem_processes : Option (List ProcMem)
  error : Option String
  deriving DecidableEq, Repr

/-- A snapshot carrying every metric field (i.e. not degraded). -/
def Snapshot.complete (s : Snapshot) : Bool :=
  s.cpu_percent.isSome && s.memory.isSome && s.load_avg.isSome &&
    s.top_cpu_processes.isSome && s.top_mem_processes.isSome

/-- Ring-buffer capacity: `SNAPSHOT_STORE = deque(maxlen=100)`. -/
def STORE_CAP : Nat := 100

/-- `deque(maxlen=cap).append(x)`: append on the right, evicting from the
left until the length is at most `cap`. -/
def dequeAppend (cap : Nat) (buf : List Snapshot) (x : Snapshot) : List Snapshot :=
  let b := buf ++ [x]
  b.drop (b.length - cap)

/-! ## daemon.py: persistence (save_snapshots / load_snapshots) -/

/-- State of the snapshots.json file. `valid` is a parseable JSON list of
snapshot records; `corrupt` is readable text that `json.load` rejects
(`JSONDecodeError`); `unreadable` is a present file whose open/read raises
an `OSError` other than `FileNotFoundError` (e.g. `PermissionError`). -/
inductive FileState where
  | absent
  | valid (snaps : List Snapshot)
  | corrupt
  | unreadable
  deriving DecidableEq, Repr

/-- The persistence-relevant state: the snapshots.json file together with
the in-memory `SNAPSHOT_STORE`. -/
structure PersistSt where
  file : FileState
  store : List Snapshot
  deriving DecidableEq, Repr

/-- daemon.save_snapshots: `json.dump(list(snapshots), f)` — overwrites the
file with the serialized list. -/
def save_snapshots (st : PersistSt) (snapshots : List Snapshot) : PersistSt :=
  { st with file := FileState.valid snapshots }

/-- daemon.load_snapshots: on a parseable file, clears `SNAPSHOT_STORE` and
extends it with `snapshots[-max_items:]` where `max_items = maxlen = 100`;
`FileNotFoundError` and `JSONDecodeError` are caught (`pass`, store left
untouched); any other exception from `open`/`read` propagates. -/
def load_snapshots (st : PersistSt) : Except PyExn PersistSt :=
  match st.file with
  | FileState.absent => Except.ok st
  | FileState.corrupt => Except.ok st
  | FileState.unreadable => Except.error PyExn.osError
  | FileState.valid snaps =>
      Except.ok { st with store := snaps.drop (snaps.length - STORE_CAP) }

/-! ## sys_tools.get_snapshot and daemon.snapshot_collector -/

/-- The full payload the capture collaborator (psutil et al.) produces when
it succeeds. -/
structure CapturePayload where
  cpu_percent : Rat
  memory : MemInfo
  load_avg : Rat × Rat × Rat
  top_cpu_processes : List ProcCpu
  top_mem_processes : List ProcMem
  deriving DecidableEq, Repr

/-- Outcome of the external capture collaborator inside
sys_tools.get_snapshot's `try` block: either the full field set, or an
exception message. -/
inductive CaptureOutcome where
  | success (payload : CapturePayload)
  | failure (msg : String)
  deriving DecidableEq, Repr

/-- sys_tools.get_snapshot: on success returns the full snapshot dict; on
any exception returns the degraded dict `{timestamp, hostname, error}`.
It never raises: the `except Exception` clause catches everything. -/
def get_snapshot (now : Rat) (host : String) (outcome : CaptureOutcome) : Snapshot :=
  match outcome with
  | CaptureOutcome.success p =>
      { timestamp := now, hostname := host, cpu_percent := some p.cpu_percent,
        memory := some p.memory, load_avg := some p.load_avg,
        top_cpu_processes := some p.top_cpu_processes,
        top_mem_processes := some p.top_mem_processes, error := none }
  | CaptureOutcome.failure e =>
      { timestamp := now, hostname := host, cpu_percent := none,
        memory := none, load_avg := none, top_cpu_processes := none,
        top_mem_processes := none, error := some e }

/-- State threaded through daemon.snapshot_collector's loop body. -/
structure CollectorSt where
  store : List Snapshot
  file : FileState
  snapshot_count : Nat
  deriving DecidableEq, Repr

/-- The environment one tick observes: the current time and the capture
collaborator's behaviour on that tick. -/
structure TickInput where
  now : Rat
  host : String
  outcome : CaptureOutcome
  deriving DecidableEq, Repr

/-- One iteration of daemon.snapshot_collector's `while True` body:
capture, restamp `snapshot['timestamp'] = time.time()`, append to the
store, and save to disk every 10th snapshot. A total function: nothing in
the body raises (get_snapshot catches internally, and the body is itself
wrapped in `try/except`), so the loop never terminates or crashes. -/
def collector_tick (inp : TickInput) (st : CollectorSt) : CollectorSt :=
  let snap := { get_snapshot inp.now inp.host inp.outcome with timestamp := inp.now }
  let store := dequeAppend STORE_CAP st.store snap
  let count := st.snapshot_count + 1
  if count % 10 = 0 then
    { store := store, file := FileState.valid store, snapshot_count := count }
  else
    { store := store, file := st.file, snapshot_count := count }

/-- The collector loop over a finite prefix of tick inputs. -/
def collector_run (inps : List TickInput) (st : CollectorSt) : CollectorSt :=
  inps.foldl (fun s i => collector_tick i s) st

/-! ## daemon.py: process lifecycle (is_daemon_running / launch_daemon /
stop_daemon)

The OS state is abstracted to the content of the PID file and the set of
live PIDs; `os.fork` success and the child establishing itself during the
parent's one-second wait are the nominal path, represented by the fresh
PID the fork would produce. -/

/-- Content of daemon.pid. `garbage` is text `int()` rejects
(`ValueError`). -/
inductive PidContent where
  | valid (pid : Nat)
  | garbage
  deriving DecidableEq, Repr

/-- OS-level state the lifecycle manager interacts with: the PID file, the
set of live process ids, and the set of PIDs running a producer loop. -/
structure SysState where
  pidFile : Option PidContent
  live : List Nat
  producers : List Nat
  deriving DecidableEq, Repr

/-- daemon.is_daemon_running: no PID file → false; unparsable PID file →
`ValueError`, file deleted, false; parsed PID dead → `ProcessLookupError`
from `os.kill(pid, 0)`, file deleted, false; parsed PID alive → true. -/
def is_daemon_running (st : SysState) : Bool × SysState :=
  match st.pidFile with
  | none => (false, st)
  | some PidContent.garbage => (false, { st with pidFile := none })
  | some (PidContent.valid pid) =>
      if pid ∈ st.live then (true, st)
      else (false, { st with pidFile := none })

/-- daemon.launch_daemon on the nominal path: if already running, return
True with no side effects; otherwise fork (the child gets fresh PID
`fresh`, re-checks `is_daemon_running`, daemonizes, writes the PID file
with its own pid and starts the collector thread) while the parent waits a
second and returns `is_daemon_running()`. -/
def launch_daemon (fresh : Nat) (st : SysState) : Bool × SysState :=
  match is_daemon_running st with
  | (true, st1) => (true, st1)
  | (false, st1) =>
      let st2 : SysState :=
        { pidFile := some (PidContent.valid fresh),
          live := fresh :: st1.live,
          producers := st1.producers ++ [fresh] }
      is_daemon_running st2

/-- daemon.stop_daemon: no PID file → True; unparsable PID → `ValueError`,
unlink, True; PID dead → `ProcessLookupError` from `os.kill(pid, 15)`,
unlink, True; PID alive → SIGTERM delivered (the daemon's signal handler
exits it), unlink, True. Every branch returns True and unlinks the file. -/
def stop_daemon (st : SysState) : Bool × SysState :=
  match st.pidFile with
  | none => (true, st)
  | some PidContent.garbage => (true, { st with pidFile := none })
  | some (PidContent.valid pid) =>
      if pid ∈ st.live then
        (true, { pidFile := none, live := st.live.erase pid,
                 producers := st.producers.erase pid })
      else (true, { st with pidFile := none })

/-! ## mcp_tools.py: analytics over the buffer

Each analytics function is a pure function of the buffer (and the current
time); the embedding returns `Except PyExn` because subscripting a missing
dict key in the Python source raises `KeyError`. -/

/-- One simplified entry of get_snapshot_history's result. The two branch
shapes differ: the `minutes_ago` branch omits the two top-process keys
(`none` here). -/
structure HistEntry where
  timestamp : Rat
  cpu_percent : Rat
  memory_percent : Rat
  load_avg : Rat × Rat × Rat
  top_cpu_process : Option String
  top_memory_process : Option String
  deriving DecidableEq, Repr

/-- Result dict of get_snapshot_history: either `{"error": msg}` or
`{"snapshots": entries}`. -/
inductive HistoryResult where
  | errorResult (msg : String)
  | snapshots (entries : List HistEntry)
  deriving DecidableEq, Repr

/-- The dict built for one snapshot in the `minutes_ago` branch of
get_snapshot_history (fields read in source order; a missing key raises). -/
def simplifyWindow (s : Snapshot) : Except PyExn HistEntry := do
  let cpu ← getKey s.cpu_percent "cpu_percent"
  let mem ← getKey s.memory "memory"
  let la ← getKey s.load_avg "load_avg"
  pure { timestamp := s.timestamp, cpu_percent := cpu,
         memory_percent := mem.percent_used, load_avg := la,
         top_cpu_process := none, top_memory_process := none }

/-- The dict built for one snapshot in the tail branch of
get_snapshot_history; the top-process name falls back to "unknown" on an
empty list (but a missing key still raises). -/
def simplifyTail (s : Snapshot) : Except PyExn HistEntry := do
  let cpu ← getKey s.cpu_percent "cpu_percent"
  let mem ← getKey s.memory "memory"
  let la ← getKey s.load_avg "load_avg"
  let tc ← getKey s.top_cpu_processes "top_cpu_processes"
  let tm ← getKey s.top_mem_processes "top_mem_processes"
  pure { timestamp := s.timestamp, cpu_percent := cpu,
         memory_percent := mem.percent_used, load_avg := la,
         top_cpu_process := some (match tc with | [] => "unknown" | p :: _ => p.name),
         top_memory_process := some (match tm with | [] => "unknown" | p :: _ => p.name) }

/-- The pure value simplifyTail computes on a complete snapshot (the
fallbacks are unreachable there). -/
def simplifyTailPure (s : Snapshot) : HistEntry :=
  { timestamp := s.timestamp, cpu_percent := s.cpu_percent.getD 0,
    memory_percent := (s.memory.getD
      { total_gb := 0, available_gb := 0, percent_used := 0 }).percent_used,
    load_avg := s.load_avg.getD (0, 0, 0),
    top_cpu_process := some (match s.top_cpu_processes.getD [] with
      | [] => "unknown" | p :: _ => p.name),
    top_memory_process := some (match s.top_mem_processes.getD [] with
      | [] => "unknown" | p :: _ => p.name) }

/-- mcp_tools.get_snapshot_history. `last_n` defaults to 10 and
`minutes_ago` to `None` in the source; `minutes_ago` is tested by
truthiness. The tail branch slices `list(buffer)[-last_n:]` before
simplifying; the window branch simplifies every in-window snapshot and
then truncates `[:last_n]`. -/
def get_snapshot_history (last_n : Nat) (minutes_ago : Option Int)
    (now : Rat) (buffer : List Snapshot) : Except PyExn HistoryResult :=
  if buffer.isEmpty then
    Except.ok (HistoryResult.errorResult "No snapshot buffer available")
  else if truthyInt minutes_ago then
    match (buffer.filter (fun s =>
        |s.timestamp - (now - ((minutes_ago.getD 0 : Int) : Rat) * 60)| < 300)).mapM
        simplifyWindow with
    | Except.error e => Except.error e
    | Except.ok entries => Except.ok (HistoryResult.snapshots (entries.take last_n))
  else
    match (pyTail last_n buffer).mapM simplifyTail with
    | Except.error e => Except.error e
    | Except.ok entries => Except.ok (HistoryResult.snapshots entries)

/-- `min` over a nonempty Python list (callers guard emptiness; the `[]`
default is unreachable there). -/
def listMin : List Rat → Rat
  | [] => 0
  | x :: xs => xs.foldl min x

/-- `max` over a nonempty Python list. -/
def listMax : List Rat → Rat
  | [] => 0
  | x :: xs => xs.foldl max x

/-- `values[0]` on a nonempty list. -/
def listFirst : List Rat → Rat
  | [] => 0
  | x :: _ => x

/-- `values[-1]` on a nonempty list. -/
def listLast (l : List Rat) : Rat := l.getLast?.getD 0

/-- The per-metric stats dict of analyze_trends. -/
structure TrendStats where
  min : Rat
  max : Rat
  avg : Rat
  current : Rat
  change : Rat
  trend : String
  deriving DecidableEq, Repr

/-- The stats analyze_trends builds from one metric's value list. -/
def mkStats (values : List Rat) : TrendStats :=
  { min := listMin values, max := listMax values,
    avg := values.sum / (values.length : Rat),
    current := listLast values,
    change := listLast values - listFirst values,
    trend := if listLast values > listFirst values then "increasing" else "decreasing" }

/-- Successful analyze_trends result; a metric key is present only when
selected. -/
structure TrendsData where
  time_window_minutes : Int
  snapshots_analyzed : Nat
  cpu : Option TrendStats
  memory : Option TrendStats
  deriving DecidableEq, Repr

/-- Result dict of analyze_trends. -/
inductive TrendsResult where
  | errorResult (msg : String)
  | analyzed (data : TrendsData)
  deriving DecidableEq, Repr

/-- One `if metric in [...]` block of analyze_trends: when the metric is
selected, the value-list computation runs (its `KeyError` propagating) and
the stats are built; otherwise no key is produced. -/
def metricStep (selected : Bool) (vals : Except PyExn (List Rat)) :
    Except PyExn (Option TrendStats) :=
  if selected then
    match vals with
    | Except.error e => Except.error e
    | Except.ok v => Except.ok (some (mkStats v))
  else Except.ok none

/-- The body of analyze_trends from the `relevant_snapshots` list on: guard
on fewer than 2 relevant snapshots, then the CPU block followed by the
memory block. -/
def trends_core (metric : String) (window_minutes : Int)
    (relevant : List Snapshot) : Except PyExn TrendsResult :=
  if relevant.length < 2 then
    Except.ok (TrendsResult.errorResult
      ("Not enough snapshots in the last " ++ toString window_minutes ++ " minutes"))
  else
    match metricStep (metric == "cpu" || metric == "both")
        (relevant.mapM (fun s => getKey s.cpu_percent "cpu_percent")) with
    | Except.error e => Except.error e
    | Except.ok cpu =>
        match metricStep (metric == "memory" || metric == "both")
            (match relevant.mapM (fun s => getKey s.memory "memory") with
             | Except.error e => Except.error e
             | Except.ok mems => Except.ok (mems.map MemInfo.percent_used)) with
        | Except.error e => Except.error e
        | Except.ok mem =>
            Except.ok (TrendsResult.analyzed
              { time_window_minutes := window_minutes,
                snapshots_analyzed := relevant.length, cpu := cpu, memory := mem })

/-- mcp_tools.analyze_trends: guard on fewer than 2 buffered snapshots,
filter to `timestamp >= now - window_minutes*60`, guard on fewer than 2
relevant, then per selected metric compute min/max/avg/current/change and
the direction (`increasing` iff strictly greater, ties `decreasing`). -/
def analyze_trends (metric : String) (window_minutes : Int)
    (now : Rat) (buffer : List Snapshot) : Except PyExn TrendsResult :=
  if buffer.length < 2 then
    Except.ok (TrendsResult.errorResult "Insufficient snapshot history for trend analysis")
  else
    trends_core metric window_minutes
      (buffer.filter (fun s => now - ((window_minutes : Int) : Rat) * 60 ≤ s.timestamp))

/-- One record of find_process_history's history list; `rtype` embeds the
"type" key ("cpu_list", "memory_list" or "both_lists"), and an absent
"cpu_percent"/"rss_mb" key is `none`. -/
structure ProcRecord where
  timestamp : Rat
  pid : Int
  cpu_percent : Option Rat
  rss_mb : Option Rat
  rtype : String
  deriving DecidableEq, Repr

/-- The pid filter `(not target_pid or proc["pid"] == target_pid)`: by
truthiness, both an absent pid and pid 0 disable the filter. -/
def pidMatch (target_pid : Option Int) (p : Int) : Bool :=
  match target_pid with
  | none => true
  | some v => v == 0 || p == v

/-- In-place mutation of the first record satisfying `q` (Python's
`next(...)` followed by item assignment). -/
def applyFirst (q : ProcRecord → Bool) (f : ProcRecord → ProcRecord) :
    List ProcRecord → List ProcRecord
  | [] => []
  | r :: rs => if q r then f r :: rs else r :: applyFirst q f rs

/-- The `found_processes` list built for one snapshot inside
find_process_history: matching entries of the CPU list first, then each
matching entry of the memory list either merges into the first record with
the same timestamp and pid (adding `rss_mb`, type becomes "both_lists") or
is appended as a "memory_list" record. Degraded snapshots contribute
nothing: both lists are read with `.get(key, [])`. -/
def perSnapshotRecords (process_name : String) (target_pid : Option Int)
    (s : Snapshot) : List ProcRecord :=
  let cpuRecs := ((s.top_cpu_processes.getD []).filter
      (fun p => p.name == process_name && pidMatch target_pid p.pid)).map
      (fun p => { timestamp := s.timestamp, pid := p.pid,
                  cpu_percent := some p.cpu_percent, rss_mb := none,
                  rtype := "cpu_list" : ProcRecord })
  (s.top_mem_processes.getD []).foldl (fun found m =>
    if m.name == process_name && pidMatch target_pid m.pid then
      if (found.find? (fun r => r.timestamp == s.timestamp && r.pid == m.pid)).isSome then
        applyFirst (fun r => r.timestamp == s.timestamp && r.pid == m.pid)
          (fun r => { r with rss_mb := some m.rss_mb, rtype := "both_lists" }) found
      else
        found ++ [{ timestamp := s.timestamp, pid := m.pid, cpu_percent := none,
                    rss_mb := some m.rss_mb, rtype := "memory_list" }]
    else found) cpuRecs

/-- Result dict of find_process_history. -/
inductive ProcHistResult where
  | errorResult (msg : String)
  | found (process_name : String) (target_pid : Option Int)
      (history : List ProcRecord)
  deriving DecidableEq, Repr

/-- The "history" value of a find_process_history result. -/
def ProcHistResult.historyOf : ProcHistResult → List ProcRecord
  | ProcHistResult.errorResult _ => []
  | ProcHistResult.found _ _ h => h

/-- mcp_tools.find_process_history: scans every snapshot, concatenates the
per-snapshot records, and returns the final `process_history[-20:]`. It
never raises (every dict access is guarded or on always-present keys). -/
def find_process_history (process_name : String) (target_pid : Option Int)
    (buffer : List Snapshot) : ProcHistResult :=
  if buffer.isEmpty then
    ProcHistResult.errorResult "No snapshot buffer available"
  else
    ProcHistResult.found process_name target_pid
      (pyTail 20 (buffer.flatMap (perSnapshotRecords process_name target_pid)))

/-! ## Helper lemmas -/

/-- A sample full snapshot used to instantiate universally quantified
theorems at concrete inputs. -/
def snapA : Snapshot :=
  { timestamp := 1, hostname := "hostA", cpu_percent := some 10,
    memory := some { total_gb := 16, available_gb := 8, percent_used := 50 },
    load_avg := some (1, 1, 1),
    top_cpu_processes := some [{ pid := 1, name := "procA", cpu_percent := 10 }],
    top_mem_processes := some [{ pid := 1, name := "procA", rss_mb := 100, vms_mb := 200 }],
    error := none }

/-- A sample degraded snapshot (capture failed). -/
def snapDeg : Snapshot :=
  { timestamp := 2, hostname := "hostA", cpu_percent := none, memory := none,
    load_avg := none, top_cpu_processes := none, top_mem_processes := none,
    error := some "boom" }

/-- A full snapshot with a given timestamp and CPU value (for the spec's
concrete trend example). -/
def trendSnap (ts c : Rat) : Snapshot :=
  { snapA with timestamp := ts, cpu_percent := some c }

/-- The spec's concrete trend buffer: CPU values [10, 20, 15, 30] at
increasing timestamps, all within a 10-minute window ending at t = 1000. -/
def trendBuf : List Snapshot :=
  [trendSnap 970 10, trendSnap 980 20, trendSnap 990 15, trendSnap 1000 30]

theorem dequeAppend_length (cap : Nat) (b : List Snapshot) (x : Snapshot) :
    (dequeAppend cap b x).length = b.length + 1 - (b.length + 1 - cap) := by
  simp [dequeAppend]

theorem foldl_dequeAppend (cap : Nat) :
    ∀ (xs b : List Snapshot), b.length ≤ cap →
      xs.foldl (dequeAppend cap) b = (b ++ xs).drop (b.length + xs.length - cap) := by
  intro xs
  induction xs with
  | nil =>
      intro b hb
      simp only [List.foldl_nil, List.append_nil, List.length_nil, Nat.add_zero]
      rw [Nat.sub_eq_zero_of_le hb, List.drop_zero]
  | cons x xs ih =>
      intro b hb
      rw [List.foldl_cons]
      have hlen : (dequeAppend cap b x).length ≤ cap := by
        rw [dequeAppend_length]; omega
      rw [ih (dequeAppend cap b x) hlen]
      have hk : b.length + 1 - cap ≤ (b ++ [x]).length := by simp
      have hdrop : dequeAppend cap b x = (b ++ [x]).drop (b.length + 1 - cap) := by
        simp [dequeAppend]
      rw [hdrop, ← List.drop_append_of_le_length hk, List.drop_drop]
      have hassoc : (b ++ [x]) ++ xs = b ++ x :: xs := by simp
      rw [hassoc]
      congr 1
      simp only [List.length_cons, List.length_append, List.length_singleton,
        List.length_drop, List.length_nil]
      omega

/-! ## C1: capacity invariant -/

/-- C1: Capacity invariant of the History Store (`deque(maxlen=100)`, so
C = 100): after any sequence of N appends to the empty store, the store's
length is exactly min(N, C) and its contents are the last min(N, C)
appended snapshots in their original append order; moreover an append at
length C evicts exactly the oldest element (strict FIFO). -/
theorem capacity_invariant_C1 (xs : List Snapshot) :
    (xs.foldl (dequeAppend STORE_CAP) []).length = min xs.length STORE_CAP
    ∧ xs.foldl (dequeAppend STORE_CAP) [] = xs.drop (xs.length - STORE_CAP)
    ∧ ∀ (buf : List Snapshot) (x : Snapshot), buf.length = STORE_CAP →
        dequeAppend STORE_CAP buf x = buf.drop 1 ++ [x] := by
  have h2 : xs.foldl (dequeAppend STORE_CAP) [] = xs.drop (xs.length - STORE_CAP) := by
    have h := foldl_dequeAppend STORE_CAP xs [] (by simp)
    simpa using h
  refine ⟨?_, h2, ?_⟩
  · rw [h2, List.length_drop]; omega
  · intro buf x hbuf
    have hone : dequeAppend STORE_CAP buf x = (buf ++ [x]).drop 1 := by
      simp [dequeAppend, hbuf]
    rw [hone, List.drop_append_of_le_length (by rw [hbuf]; norm_num [STORE_CAP])]

/-- Witness for C1: a store of 100 identical snapshots evicts its head on
the next append. -/
theorem capacity_invariant_C1_witness :
    dequeAppend STORE_CAP (List.replicate STORE_CAP snapA) snapDeg
      = (List.replicate STORE_CAP snapA).drop 1 ++ [snapDeg] :=
  (capacity_invariant_C1 []).2.2 (List.replicate STORE_CAP snapA) snapDeg (by simp)

/-! ## C2: persistence round-trip -/

/-- C2 counterexample: a snapshots.json that exists but whose open/read
raises an `OSError` other than `FileNotFoundError` (e.g. a
permission-denied file) is "unreadable content", yet load_snapshots
propagates the exception instead of yielding an empty history: only
`FileNotFoundError` and `JSONDecodeError` are caught. -/
theorem persistence_C2_counterexample :
    load_snapshots { file := FileState.unreadable, store := [] }
      = Except.error PyExn.osError := rfl

/-- C2 amended: `load_snapshots` after `save_snapshots S` leaves the store
holding the tail-100 of S in order; loading an absent file or JSON-corrupt
content is caught and leaves the (startup-empty) store empty without
raising; but a present file whose read raises any other `OSError`
propagates the exception (see the counterexample). -/
theorem persistence_C2_amended (S : List Snapshot) (st : PersistSt) :
    load_snapshots (save_snapshots st S)
        = Except.ok { file := FileState.valid S,
                      store := S.drop (S.length - STORE_CAP) }
    ∧ load_snapshots { file := FileState.absent, store := [] }
        = Except.ok { file := FileState.absent, store := [] }
    ∧ load_snapshots { file := FileState.corrupt, store := [] }
        = Except.ok { file := FileState.corrupt, store := [] } := by
  exact ⟨by simp [save_snapshots, load_snapshots], rfl, rfl⟩

/-! ## Monadic helper lemmas for the analytics claims -/

theorem getKey_ok {α : Type} {v : Option α} (h : v.isSome = true) (k : String) :
    ∃ a, getKey v k = Except.ok a := by
  cases v with
  | none => simp at h
  | some a => exact ⟨a, rfl⟩

theorem mapM_ok {α β : Type} (l : List α) (f : α → Except PyExn β)
    (h : ∀ a ∈ l, ∃ b, f a = Except.ok b) :
    ∃ bs, l.mapM f = Except.ok bs := by
  induction l with
  | nil => exact ⟨[], rfl⟩
  | cons x xs ih =>
      obtain ⟨b, hb⟩ := h x (List.mem_cons_self x xs)
      obtain ⟨bs, hbs⟩ := ih (fun a ha => h a (List.mem_cons_of_mem x ha))
      refine ⟨b :: bs, ?_⟩
      rw [List.mapM_cons, hb, hbs]
      rfl

theorem mapM_map {α β : Type} (l : List α) (f : α → Except PyExn β) (g : α → β)
    (h : ∀ a ∈ l, f a = Except.ok (g a)) :
    l.mapM f = Except.ok (l.map g) := by
  induction l with
  | nil => rfl
  | cons x xs ih =>
      rw [List.mapM_cons, h x (List.mem_cons_self x xs),
        ih (fun a ha => h a (List.mem_cons_of_mem x ha))]
      rfl

theorem mapM_length {α β : Type} (l : List α) (f : α → Except PyExn β)
    (bs : List β) (h : l.mapM f = Except.ok bs) : bs.length = l.length := by
  induction l generalizing bs with
  | nil => simp only [List.mapM_nil] at h; cases h; rfl
  | cons x xs ih =>
      rw [List.mapM_cons] at h
      cases hx : f x with
      | error e => rw [hx] at h; exact Except.noConfusion h
      | ok b =>
          rw [hx] at h
          cases hxs : xs.mapM f with
          | error e => rw [hxs] at h; exact Except.noConfusion h
          | ok bs1 =>
              rw [hxs] at h
              have h' : Except.ok (b :: bs1) = (Except.ok bs : Except PyExn (List β)) := h
              cases Except.ok.inj h'
              simp [ih bs1 hxs]

/-- Unpacking of `Snapshot.complete`. -/
theorem complete_fields {s : Snapshot} (h : s.complete = true) :
    s.cpu_percent.isSome = true ∧ s.memory.isSome = true
    ∧ s.load_avg.isSome = true ∧ s.top_cpu_processes.isSome = true
    ∧ s.top_mem_processes.isSome = true := by
  simp only [Snapshot.complete, Bool.and_eq_true] at h
  exact ⟨h.1.1.1.1, h.1.1.1.2, h.1.1.2, h.1.2, h.2⟩

theorem simplifyWindow_ok {s : Snapshot} (h : s.complete = true) :
    ∃ e, simplifyWindow s = Except.ok e := by
  obtain ⟨h1, h2, h3, -, -⟩ := complete_fields h
  obtain ⟨c, hc⟩ := getKey_ok h1 "cpu_percent"
  obtain ⟨m, hm⟩ := getKey_ok h2 "memory"
  obtain ⟨l, hl⟩ := getKey_ok h3 "load_avg"
  exact ⟨_, by rw [simplifyWindow, hc, hm, hl]; rfl⟩

theorem simplifyTail_ok {s : Snapshot} (h : s.complete = true) :
    ∃ e, simplifyTail s = Except.ok e := by
  obtain ⟨h1, h2, h3, h4, h5⟩ := complete_fields h
  obtain ⟨c, hc⟩ := getKey_ok h1 "cpu_percent"
  obtain ⟨m, hm⟩ := getKey_ok h2 "memory"
  obtain ⟨l, hl⟩ := getKey_ok h3 "load_avg"
  obtain ⟨tc, htc⟩ := getKey_ok h4 "top_cpu_processes"
  obtain ⟨tm, htm⟩ := getKey_ok h5 "top_mem_processes"
  exact ⟨_, by rw [simplifyTail, hc, hm, hl, htc, htm]; rfl⟩

/-- Members of `pyTail n l` are members of `l`. -/
theorem pyTail_subset (n : Nat) (l : List α) : pyTail n l ⊆ l := by
  unfold pyTail
  split
  · exact fun a ha => ha
  · exact List.drop_subset _ l

theorem pyTail_eq_drop (n : Nat) (hn : n ≠ 0) (l : List α) :
    pyTail n l = l.drop (l.length - n) := by
  unfold pyTail
  rw [if_neg hn]

theorem mapM_ne_error {α β : Type} {l : List α} {f : α → Except PyExn β}
    (h : ∀ a ∈ l, ∃ b, f a = Except.ok b) (e : PyExn) :
    l.mapM f ≠ Except.error e := by
  obtain ⟨bs, hbs⟩ := mapM_ok l f h
  rw [hbs]
  exact fun hcon => Except.noConfusion hcon

/-! ## C3: analytics never crash -/

/-- C3 counterexample: on a buffer holding one degraded snapshot (only
timestamp, hostname and error — which the spec says is still appended),
get_snapshot_history raises `KeyError("cpu_percent")` instead of returning
a structured result: the simplification subscripts `snapshot["cpu_percent"]`
unconditionally. analyze_trends raises the same way once a degraded
snapshot is inside the window. -/
theorem analytics_C3_counterexample :
    get_snapshot_history 10 none 1000 [snapDeg]
        = Except.error (PyExn.keyError "cpu_percent")
    ∧ analyze_trends "cpu" 10 100 [snapDeg, snapDeg]
        = Except.error (PyExn.keyError "cpu_percent") := by
  refine ⟨rfl, ?_⟩
  unfold analyze_trends trends_core
  norm_num
  rfl

/-- C3 amended: the three analytics operations are pure functions of the
buffer by construction; when every buffered snapshot is complete
(non-degraded), get_snapshot_history and analyze_trends return a
structured result and never raise; find_process_history never raises for
any buffer, degraded snapshots included (it reads the process lists with
`.get(key, [])`); and absent history yields the typed error results. On a
buffer containing a degraded snapshot, however, get_snapshot_history and
analyze_trends raise `KeyError` (see the counterexample, caught only at
the dispatch layer `execute_tool_call`). -/
theorem analytics_C3_amended (buffer : List Snapshot) (n : Nat) (m : Option Int)
    (metric : String) (w : Int) (now : Rat) (name : String) (tpid : Option Int)
    (hc : ∀ s ∈ buffer, s.complete = true) :
    isOkE (get_snapshot_history n m now buffer) = true
    ∧ isOkE (analyze_trends metric w now buffer) = true
    ∧ find_process_history name tpid []
        = ProcHistResult.errorResult "No snapshot buffer available"
    ∧ get_snapshot_history n m now []
        = Except.ok (HistoryResult.errorResult "No snapshot buffer available")
    ∧ (buffer.length < 2 → analyze_trends metric w now buffer
        = Except.ok (TrendsResult.errorResult
            "Insufficient snapshot history for trend analysis")) := by
  refine ⟨?_, ?_, rfl, rfl, ?_⟩
  · unfold get_snapshot_history
    split
    · rfl
    · split
      · split
        · rename_i e heq
          exact absurd heq (mapM_ne_error
            (fun s hs => simplifyWindow_ok (hc s (List.mem_filter.mp hs).1)) e)
        · rfl
      · split
        · rename_i e heq
          exact absurd heq (mapM_ne_error
            (fun s hs => simplifyTail_ok (hc s (pyTail_subset n buffer hs))) e)
        · rfl
  · unfold analyze_trends trends_core
    split
    · rfl
    · split
      · rfl
      · split
        · rename_i e heq
          rcases Bool.eq_false_or_eq_true (metric == "cpu" || metric == "both")
            with hsel | hsel
          case inr =>
            unfold metricStep at heq
            rw [if_neg (by simp [hsel])] at heq
            exact Except.noConfusion heq
          case inl =>
            unfold metricStep at heq
            rw [if_pos hsel] at heq
            rcases hmap : (buffer.filter
                (fun s => now - ((w : Int) : Rat) * 60 ≤ s.timestamp)).mapM
                (fun s => getKey s.cpu_percent "cpu_percent") with e1 | vs
            · exact absurd hmap (mapM_ne_error (fun s hs =>
                getKey_ok (complete_fields (hc s (List.mem_filter.mp hs).1)).1
                  "cpu_percent") e1)
            · rw [hmap] at heq
              exact Except.noConfusion heq
        · split
          · rename_i cpu e heq
            rcases Bool.eq_false_or_eq_true (metric == "memory" || metric == "both")
              with hsel | hsel
            case inr =>
              unfold metricStep at heq
              rw [if_neg (by simp [hsel])] at heq
              exact Except.noConfusion heq
            case inl =>
              unfold metricStep at heq
              rw [if_pos hsel] at heq
              rcases hmap : (buffer.filter
                  (fun s => now - ((w : Int) : Rat) * 60 ≤ s.timestamp)).mapM
                  (fun s => getKey s.memory "memory") with e1 | vs
              · exact absurd hmap (mapM_ne_error (fun s hs =>
                  getKey_ok (complete_fields (hc s (List.mem_filter.mp hs).1)).2.1
                    "memory") e1)
              · rw [hmap] at heq
                exact Except.noConfusion heq
          · rfl
  · intro h1
    unfold analyze_trends
    rw [if_pos h1]

/-- Witness for C3 (amended): instantiated on a buffer of two complete
snapshots. -/
theorem analytics_C3_amended_witness :
    isOkE (get_snapshot_history 10 none 1000 [snapA, snapA]) = true
    ∧ isOkE (analyze_trends "both" 100 1000 [snapA, snapA]) = true := by
  have h := analytics_C3_amended [snapA, snapA] 10 none "both" 100 1000 "procA"
    none (by decide)
  exact ⟨h.1, h.2.1⟩

/-! ## C4: trend computation -/

theorem foldl_min_le (xs : List Rat) :
    ∀ (a : Rat), ∀ v ∈ a :: xs, xs.foldl min a ≤ v := by
  induction xs with
  | nil =>
      intro a v hv
      simp only [List.mem_singleton] at hv
      simp [hv]
  | cons x xs ih =>
      intro a v hv
      simp only [List.foldl_cons]
      rcases List.mem_cons.mp hv with rfl | hv1
      · exact le_trans (ih _ _ (List.mem_cons_self _ _)) (min_le_left _ _)
      rcases List.mem_cons.mp hv1 with rfl | hv2
      · exact le_trans (ih _ _ (List.mem_cons_self _ _)) (min_le_right _ _)
      · exact ih (min a x) v (List.mem_cons_of_mem _ hv2)

theorem foldl_min_mem (xs : List Rat) : ∀ a, xs.foldl min a ∈ a :: xs := by
  induction xs with
  | nil => intro a; simp
  | cons x xs ih =>
      intro a
      simp only [List.foldl_cons]
      rcases List.mem_cons.mp (ih (min a x)) with h | h
      · rcases min_choice a x with hc | hc
        · rw [h, hc]; exact List.mem_cons_self _ _
        · rw [h, hc]; exact List.mem_cons_of_mem _ (List.mem_cons_self _ _)
      · exact List.mem_cons_of_mem _ (List.mem_cons_of_mem _ h)

theorem foldl_max_le (xs : List Rat) :
    ∀ (a : Rat), ∀ v ∈ a :: xs, v ≤ xs.foldl max a := by
  induction xs with
  | nil =>
      intro a v hv
      simp only [List.mem_singleton] at hv
      simp [hv]
  | cons x xs ih =>
      intro a v hv
      simp only [List.foldl_cons]
      rcases List.mem_cons.mp hv with rfl | hv1
      · exact le_trans (le_max_left _ _) (ih _ _ (List.mem_cons_self _ _))
      rcases List.mem_cons.mp hv1 with rfl | hv2
      · exact le_trans (le_max_right _ _) (ih _ _ (List.mem_cons_self _ _))
      · exact ih (max a x) v (List.mem_cons_of_mem _ hv2)

theorem foldl_max_mem (xs : List Rat) : ∀ a, xs.foldl max a ∈ a :: xs := by
  induction xs with
  | nil => intro a; simp
  | cons x xs ih =>
      intro a
      simp only [List.foldl_cons]
      rcases List.mem_cons.mp (ih (max a x)) with h | h
      · rcases max_choice a x with hc | hc
        · rw [h, hc]; exact List.mem_cons_self _ _
        · rw [h, hc]; exact List.mem_cons_of_mem _ (List.mem_cons_self _ _)
      · exact List.mem_cons_of_mem _ (List.mem_cons_of_mem _ h)

/-- C4: Trend computation correctness, per selected metric: whenever at
least two snapshots lie in the window, with CPU values `vals` and memory
dicts `mems` (in buffer order), `analyze_trends` returns exactly the stats
record built from the selected metric's value list — `vals` for "cpu",
the `percent_used` projections of `mems` for "memory", and both for
"both" — and on every nonempty value list the stats builder `mkStats`
yields a genuine minimum and maximum, the arithmetic mean, the last
in-window value as `current`, last − first as `change`, and direction
"increasing" exactly when last > first (a tie yields "decreasing").
The spec's concrete instance (values [10, 20, 15, 30] giving min=10,
max=30, avg=18.75, current=30, change=20, "increasing") is the witness
theorem. -/
theorem trends_C4 (buffer : List Snapshot) (w : Int) (now : Rat)
    (vals : List Rat) (mems : List MemInfo)
    (hvals : (buffer.filter
        (fun s => now - ((w : Int) : Rat) * 60 ≤ s.timestamp)).mapM
        (fun s => getKey s.cpu_percent "cpu_percent") = Except.ok vals)
    (hmems : (buffer.filter
        (fun s => now - ((w : Int) : Rat) * 60 ≤ s.timestamp)).mapM
        (fun s => getKey s.memory "memory") = Except.ok mems)
    (hlen : 2 ≤ (buffer.filter
        (fun s => now - ((w : Int) : Rat) * 60 ≤ s.timestamp)).length) :
    analyze_trends "cpu" w now buffer = Except.ok (TrendsResult.analyzed
      { time_window_minutes := w,
        snapshots_analyzed := (buffer.filter
          (fun s => now - ((w : Int) : Rat) * 60 ≤ s.timestamp)).length,
        cpu := some (mkStats vals), memory := none })
    ∧ analyze_trends "memory" w now buffer = Except.ok (TrendsResult.analyzed
      { time_window_minutes := w,
        snapshots_analyzed := (buffer.filter
          (fun s => now - ((w : Int) : Rat) * 60 ≤ s.timestamp)).length,
        cpu := none, memory := some (mkStats (mems.map MemInfo.percent_used)) })
    ∧ analyze_trends "both" w now buffer = Except.ok (TrendsResult.analyzed
      { time_window_minutes := w,
        snapshots_analyzed := (buffer.filter
          (fun s => now - ((w : Int) : Rat) * 60 ≤ s.timestamp)).length,
        cpu := some (mkStats vals),
        memory := some (mkStats (mems.map MemInfo.percent_used)) })
    ∧ vals ≠ []
    ∧ mems.map MemInfo.percent_used ≠ []
    ∧ ∀ u : List Rat, u ≠ [] →
        (mkStats u).min ∈ u
        ∧ (∀ v ∈ u, (mkStats u).min ≤ v)
        ∧ (mkStats u).max ∈ u
        ∧ (∀ v ∈ u, v ≤ (mkStats u).max)
        ∧ (mkStats u).avg = u.sum / (u.length : Rat)
        ∧ (mkStats u).current = listLast u
        ∧ (mkStats u).change = listLast u - listFirst u
        ∧ ((mkStats u).trend = "increasing" ↔ listFirst u < listLast u)
        ∧ (listLast u = listFirst u → (mkStats u).trend = "decreasing") := by
  have hfl := List.length_filter_le
    (fun s => decide (now - ((w : Int) : Rat) * 60 ≤ s.timestamp)) buffer
  have hvlen := mapM_length _ _ _ hvals
  have hmlen := mapM_length _ _ _ hmems
  have hvne : vals ≠ [] := by
    intro h
    rw [h] at hvlen
    simp only [List.length_nil] at hvlen
    omega
  have hmne : mems.map MemInfo.percent_used ≠ [] := by
    intro h
    rw [List.map_eq_nil_iff] at h
    rw [h] at hmlen
    simp only [List.length_nil] at hmlen
    omega
  refine ⟨?_, ?_, ?_, hvne, hmne, ?_⟩
  · unfold analyze_trends trends_core
    rw [if_neg (by omega), if_neg (by omega)]
    have hcpu : metricStep (("cpu" == "cpu" || "cpu" == "both") : Bool)
        ((buffer.filter
          (fun s => now - ((w : Int) : Rat) * 60 ≤ s.timestamp)).mapM
          (fun s => getKey s.cpu_percent "cpu_percent"))
        = Except.ok (some (mkStats vals)) := by
      unfold metricStep
      rw [if_pos (by decide), hvals]
    have hmem : ∀ X : Except PyExn (List Rat),
        metricStep (("cpu" == "memory" || "cpu" == "both") : Bool) X
          = Except.ok none := by
      intro X
      unfold metricStep
      rw [if_neg (by decide)]
    rw [hcpu, hmem]
  · unfold analyze_trends trends_core
    rw [if_neg (by omega), if_neg (by omega)]
    have hcpu : ∀ X : Except PyExn (List Rat),
        metricStep (("memory" == "cpu" || "memory" == "both") : Bool) X
          = Except.ok none := by
      intro X
      unfold metricStep
      rw [if_neg (by decide)]
    have hmem : metricStep (("memory" == "memory" || "memory" == "both") : Bool)
        (match (buffer.filter
            (fun s => now - ((w : Int) : Rat) * 60 ≤ s.timestamp)).mapM
            (fun s => getKey s.memory "memory") with
          | Except.error e => Except.error e
          | Except.ok ms => Except.ok (ms.map MemInfo.percent_used))
        = Except.ok (some (mkStats (mems.map MemInfo.percent_used))) := by
      unfold metricStep
      rw [if_pos (by decide), hmems]
    rw [hcpu, hmem]
  · unfold analyze_trends trends_core
    rw [if_neg (by omega), if_neg (by omega)]
    have hcpu : metricStep (("both" == "cpu" || "both" == "both") : Bool)
        ((buffer.filter
          (fun s => now - ((w : Int) : Rat) * 60 ≤ s.timestamp)).mapM
          (fun s => getKey s.cpu_percent "cpu_percent"))
        = Except.ok (some (mkStats vals)) := by
      unfold metricStep
      rw [if_pos (by decide), hvals]
    have hmem : metricStep (("both" == "memory" || "both" == "both") : Bool)
        (match (buffer.filter
            (fun s => now - ((w : Int) : Rat) * 60 ≤ s.timestamp)).mapM
            (fun s => getKey s.memory "memory") with
          | Except.error e => Except.error e
          | Except.ok ms => Except.ok (ms.map MemInfo.percent_used))
        = Except.ok (some (mkStats (mems.map MemInfo.percent_used))) := by
      unfold metricStep
      rw [if_pos (by decide), hmems]
    rw [hcpu, hmem]
  · intro u hu
    refine ⟨?_, ?_, ?_, ?_, rfl, rfl, rfl, ?_, ?_⟩
    · cases u with
      | nil => exact absurd rfl hu
      | cons v vs => exact foldl_min_mem vs v
    · cases u with
      | nil => exact absurd rfl hu
      | cons v vs => exact foldl_min_le vs v
    · cases u with
      | nil => exact absurd rfl hu
      | cons v vs => exact foldl_max_mem vs v
    · cases u with
      | nil => exact absurd rfl hu
      | cons v vs => exact foldl_max_le vs v
    · by_cases h : listFirst u < listLast u
      · simp [mkStats, h]
      · simp [mkStats, h]
    · intro h
      simp [mkStats, h]

/-- Witness for C4: the spec's concrete instance — CPU values
[10, 20, 15, 30] inside the window yield min=10, max=30, avg=18.75,
current=30, change=20, direction "increasing". -/
theorem trends_C4_witness :
    analyze_trends "cpu" 10 1000 trendBuf = Except.ok (TrendsResult.analyzed
      { time_window_minutes := 10, snapshots_analyzed := 4,
        cpu := some { min := 10, max := 30, avg := 75/4, current := 30,
                      change := 20, trend := "increasing" },
        memory := none }) := by
  have hfilter : trendBuf.filter
      (fun s => (1000 : Rat) - ((10 : Int) : Rat) * 60 ≤ s.timestamp) = trendBuf := by
    norm_num [trendBuf, trendSnap, List.filter, snapA]
  have h := (trends_C4 trendBuf 10 1000 [10, 20, 15, 30]
    [{ total_gb := 16, available_gb := 8, percent_used := 50 },
     { total_gb := 16, available_gb := 8, percent_used := 50 },
     { total_gb := 16, available_gb := 8, percent_used := 50 },
     { total_gb := 16, available_gb := 8, percent_used := 50 }]
    (by rw [hfilter]; rfl) (by rw [hfilter]; rfl)
    (by rw [hfilter]; norm_num [trendBuf])).1
  rw [h, hfilter]
  norm_num [mkStats, listMin, listMax, listFirst, listLast, List.getLast?,
    min_def, max_def, trendBuf]

/-! ## C5: degraded-capture resilience of the producer loop -/

theorem dequeAppend_getLast (buf : List Snapshot) (x : Snapshot) :
    (dequeAppend STORE_CAP buf x).getLast? = some x := by
  have hk : buf.length + 1 - STORE_CAP ≤ buf.length := by
    simp only [STORE_CAP]; omega
  have h1 : dequeAppend STORE_CAP buf x
      = buf.drop (buf.length + 1 - STORE_CAP) ++ [x] := by
    simp only [dequeAppend, List.length_append, List.length_singleton]
    rw [List.drop_append_of_le_length hk]
  rw [h1, List.getLast?_concat]

/-- C5: Degraded-capture resilience: on a tick where the capture
collaborator fails, get_snapshot returns the degraded dict (never raises),
and the collector body appends exactly that one entry — carrying
`error` — to the store (evicting at capacity, so the store grows to
min(len+1, 100) with the degraded snapshot last); the loop body is a total
function, so each tick just steps to the next one. -/
theorem degraded_C5 (st : CollectorSt) (now : Rat) (host : String) (e : String) :
    (collector_tick (TickInput.mk now host (CaptureOutcome.failure e)) st).store
      = dequeAppend STORE_CAP st.store
          (get_snapshot now host (CaptureOutcome.failure e))
    ∧ (get_snapshot now host (CaptureOutcome.failure e)).error = some e
    ∧ (collector_tick (TickInput.mk now host (CaptureOutcome.failure e)) st).store.getLast?
        = some (get_snapshot now host (CaptureOutcome.failure e))
    ∧ (collector_tick (TickInput.mk now host (CaptureOutcome.failure e)) st).store.length
        = min (st.store.length + 1) STORE_CAP
    ∧ ∀ (inp : TickInput) (rest : List TickInput) (s : CollectorSt),
        collector_run (inp :: rest) s = collector_run rest (collector_tick inp s) := by
  have hstore : (collector_tick (TickInput.mk now host (CaptureOutcome.failure e)) st).store
        = dequeAppend STORE_CAP st.store
            (get_snapshot now host (CaptureOutcome.failure e)) := by
    simp only [collector_tick]
    split <;> rfl
  refine ⟨hstore, rfl, ?_, ?_, fun inp rest s => rfl⟩
  · rw [hstore, dequeAppend_getLast]
  · rw [hstore, dequeAppend_length]
    simp only [STORE_CAP]
    omega

/-! ## C6: process-history merge and cap -/

theorem foldl_ignore_filter {α β : Type} (p : α → Bool) (g : β → α → β) :
    ∀ (l : List α) (b : β),
      l.foldl (fun acc m => if p m then g acc m else acc) b
        = (l.filter p).foldl g b := by
  intro l
  induction l with
  | nil => intro b; rfl
  | cons x xs ih =>
      intro b
      simp only [List.foldl_cons, List.filter_cons]
      by_cases h : p x = true
      · simp only [h, if_true]
        rw [List.foldl_cons, ih]
      · simp only [h, if_false, Bool.false_eq_true]
        rw [ih]

/-- C6: Process-history merge and cap: if exactly one entry of the
snapshot's top-CPU list and exactly one entry of its top-memory list match
the name/pid filter, and they denote the same pid, the per-snapshot scan
produces exactly one merged record carrying both `cpu_percent` and
`rss_mb` (type "both_lists"), never two records; and for any nonempty
buffer, the returned history is the suffix of the most recent 20 matching
records of the whole scan (`[-20:]`), never more than 20. -/
theorem merge_C6 (s : Snapshot) (name : String) (tpid : Option Int)
    (c : ProcCpu) (m : ProcMem)
    (hc : (s.top_cpu_processes.getD []).filter
        (fun p => p.name == name && pidMatch tpid p.pid) = [c])
    (hm : (s.top_mem_processes.getD []).filter
        (fun p => p.name == name && pidMatch tpid p.pid) = [m])
    (hpid : m.pid = c.pid) :
    perSnapshotRecords name tpid s
      = [{ timestamp := s.timestamp, pid := c.pid,
           cpu_percent := some c.cpu_percent, rss_mb := some m.rss_mb,
           rtype := "both_lists" }]
    ∧ ∀ (buffer : List Snapshot), buffer ≠ [] →
        (find_process_history name tpid buffer).historyOf
          = (buffer.flatMap (perSnapshotRecords name tpid)).drop
              ((buffer.flatMap (perSnapshotRecords name tpid)).length - 20)
        ∧ (find_process_history name tpid buffer).historyOf.length ≤ 20 := by
  constructor
  · simp only [perSnapshotRecords]
    rw [foldl_ignore_filter
      (fun p : ProcMem => p.name == name && pidMatch tpid p.pid), hm, hc]
    simp [List.find?, applyFirst, hpid]
  · intro buffer hb
    have hne : buffer.isEmpty = false := by
      cases buffer with
      | nil => exact absurd rfl hb
      | cons x xs => rfl
    have hfind : find_process_history name tpid buffer
        = ProcHistResult.found name tpid
            ((buffer.flatMap (perSnapshotRecords name tpid)).drop
              ((buffer.flatMap (perSnapshotRecords name tpid)).length - 20)) := by
      unfold find_process_history
      rw [hne]
      simp only [Bool.false_eq_true, if_false]
      rw [pyTail_eq_drop 20 (by norm_num)]
    rw [hfind]
    refine ⟨rfl, ?_⟩
    simp only [ProcHistResult.historyOf, List.length_drop]
    omega

/-- Witness for C6: in snapA the process "procA" (pid 1) sits in both top
lists; one merged record results, and the cap equation holds on a
one-snapshot buffer. -/
theorem merge_C6_witness :
    perSnapshotRecords "procA" none snapA
      = [{ timestamp := 1, pid := 1, cpu_percent := some 10,
           rss_mb := some 100, rtype := "both_lists" }]
    ∧ (find_process_history "procA" none [snapA]).historyOf
        = ([snapA].flatMap (perSnapshotRecords "procA" none)).drop
            (([snapA].flatMap (perSnapshotRecords "procA" none)).length - 20) := by
  have h := merge_C6 snapA "procA" none
    { pid := 1, name := "procA", cpu_percent := 10 }
    { pid := 1, name := "procA", rss_mb := 100, vms_mb := 200 }
    (by decide) (by decide) rfl
  exact ⟨h.1, (h.2 [snapA] (by decide)).1⟩

/-! ## C7: tail-N read semantics -/

theorem simplifyTail_complete {s : Snapshot} (h : s.complete = true) :
    simplifyTail s = Except.ok (simplifyTailPure s) := by
  obtain ⟨h1, h2, h3, h4, h5⟩ := complete_fields h
  rcases hA : s.cpu_percent with _ | c
  · rw [hA] at h1; exact absurd h1 (by simp)
  rcases hB : s.memory with _ | mi
  · rw [hB] at h2; exact absurd h2 (by simp)
  rcases hC : s.load_avg with _ | la
  · rw [hC] at h3; exact absurd h3 (by simp)
  rcases hD : s.top_cpu_processes with _ | tc
  · rw [hD] at h4; exact absurd h4 (by simp)
  rcases hE : s.top_mem_processes with _ | tm
  · rw [hE] at h5; exact absurd h5 (by simp)
  unfold simplifyTail simplifyTailPure
  rw [hA, hB, hC, hD, hE]
  rfl

/-- Reduction of get_snapshot_history without `minutes_ago` (the tail
branch). -/
theorem get_snapshot_history_tail (n : Nat) (now : Rat)
    (buffer : List Snapshot) (hne : buffer.isEmpty = false)
    (es : List HistEntry)
    (hes : (pyTail n buffer).mapM simplifyTail = Except.ok es) :
    get_snapshot_history n none now buffer
      = Except.ok (HistoryResult.snapshots es) := by
  unfold get_snapshot_history
  rw [hne]
  simp only [Bool.false_eq_true, if_false, truthyInt]
  rw [hes]

/-- C7 counterexample: on the one-snapshot buffer [snapA] the history
operation with `last_n = 0` and no `minutes_ago` returns the whole buffer
(one entry), not the empty sequence: Python's `lst[-0:]` is `lst[0:]`,
the entire list. -/
theorem tail_C7_counterexample :
    get_snapshot_history 0 none 1000 [snapA]
        = Except.ok (HistoryResult.snapshots [simplifyTailPure snapA])
    ∧ [simplifyTailPure snapA] ≠ ([] : List HistEntry) := ⟨rfl, by simp⟩

/-- C7 amended: for a nonempty buffer of complete snapshots and n ≥ 1 the
history operation without `minutes_ago` returns exactly the last
min(n, length) entries, simplified, in original order; but for n = 0 it
returns the whole buffer (simplified), not the empty sequence, because the
slice `[-last_n:]` with `last_n = 0` is the entire list. -/
theorem tail_C7_amended (buffer : List Snapshot) (n : Nat) (now : Rat)
    (hne : buffer ≠ []) (hc : ∀ s ∈ buffer, s.complete = true) :
    (1 ≤ n → get_snapshot_history n none now buffer
        = Except.ok (HistoryResult.snapshots
            ((buffer.drop (buffer.length - n)).map simplifyTailPure)))
    ∧ (n = 0 → get_snapshot_history 0 none now buffer
        = Except.ok (HistoryResult.snapshots (buffer.map simplifyTailPure)))
    ∧ (buffer.drop (buffer.length - n)).length = min n buffer.length := by
  have hbe : buffer.isEmpty = false := by
    cases buffer with
    | nil => exact absurd rfl hne
    | cons x xs => rfl
  refine ⟨?_, ?_, ?_⟩
  · intro hn1
    have hdrop : pyTail n buffer = buffer.drop (buffer.length - n) :=
      pyTail_eq_drop n (by omega) buffer
    refine get_snapshot_history_tail n now buffer hbe _ ?_
    rw [hdrop]
    exact mapM_map _ _ _ (fun a ha =>
      simplifyTail_complete (hc a (List.drop_subset _ _ ha)))
  · intro hn0
    have h0 : pyTail 0 buffer = buffer := by
      unfold pyTail
      rw [if_pos rfl]
    refine get_snapshot_history_tail 0 now buffer hbe _ ?_
    rw [h0]
    exact mapM_map _ _ _ (fun a ha => simplifyTail_complete (hc a ha))
  · rw [List.length_drop]
    omega

/-- Witness for C7 (amended): on a two-snapshot buffer, `last_n = 1`
returns exactly the last entry. -/
theorem tail_C7_amended_witness :
    get_snapshot_history 1 none 1000 [snapA, snapA]
      = Except.ok (HistoryResult.snapshots
          (([snapA, snapA].drop ([snapA, snapA].length - 1)).map
            simplifyTailPure)) :=
  (tail_C7_amended [snapA, snapA] 1 1000 (by simp) (by decide)).1 (by norm_num)

/-! ## C8/C9: lifecycle idempotency -/

theorem is_running_true_eq {st : SysState}
    (h : (is_daemon_running st).1 = true) :
    is_daemon_running st = (true, st) := by
  obtain ⟨pf, live, prods⟩ := st
  cases pf with
  | none => simp [is_daemon_running] at h
  | some pc =>
      cases pc with
      | garbage => simp [is_daemon_running] at h
      | valid pid =>
          by_cases hl : pid ∈ live
          · simp [is_daemon_running, hl]
          · simp [is_daemon_running, hl] at h

/-- C8: Idempotent start: when the daemon is already running (live
identity record), launch_daemon returns success with no side effects; and
from a clean state two successive launches (nominal fork path) report
success, leave exactly one producer running, and the second call changes
nothing. -/
theorem idempotent_start_C8 (st : SysState) (fresh fresh2 : Nat) :
    ((is_daemon_running st).1 = true → launch_daemon fresh st = (true, st))
    ∧ (st.pidFile = none → st.producers = [] →
        launch_daemon fresh st
            = (true, SysState.mk (some (PidContent.valid fresh))
                (fresh :: st.live) [fresh])
          ∧ launch_daemon fresh2 (launch_daemon fresh st).2
            = (true, (launch_daemon fresh st).2)) := by
  constructor
  · intro h
    unfold launch_daemon
    rw [is_running_true_eq h]
  · intro hp hprod
    have h1 : is_daemon_running st = (false, st) := by
      unfold is_daemon_running
      rw [hp]
    have hlaunch1 : launch_daemon fresh st
        = (true, SysState.mk (some (PidContent.valid fresh))
            (fresh :: st.live) [fresh]) := by
      simp only [launch_daemon, h1]
      simp [is_daemon_running, hprod]
    have h2 : (is_daemon_running (SysState.mk (some (PidContent.valid fresh))
        (fresh :: st.live) [fresh])).1 = true := by
      simp [is_daemon_running]
    refine ⟨hlaunch1, ?_⟩
    rw [hlaunch1]
    unfold launch_daemon
    rw [is_running_true_eq h2]

/-- Witness for C8: from the clean state, two successive launches (fresh
pids 9 then 11) both succeed and leave exactly one producer. -/
theorem idempotent_start_C8_witness :
    launch_daemon 9 (SysState.mk none [] [])
        = (true, SysState.mk (some (PidContent.valid 9)) [9] [9])
      ∧ launch_daemon 11 (launch_daemon 9 (SysState.mk none [] [])).2
        = (true, (launch_daemon 9 (SysState.mk none [] [])).2) :=
  (idempotent_start_C8 (SysState.mk none [] []) 9 11).2 rfl rfl

/-- C9: stop_daemon returns success and leaves the identity record absent
from every initial state — record absent, unparsable, stale, or naming a
live process; in particular stopping when nothing is running is a success
no-op. -/
theorem stop_C9 (st : SysState) :
    (stop_daemon st).1 = true ∧ (stop_daemon st).2.pidFile = none
    ∧ (st.pidFile = none → stop_daemon st = (true, st)) := by
  obtain ⟨pf, live, prods⟩ := st
  cases pf with
  | none => exact ⟨rfl, rfl, fun h => rfl⟩
  | some pc =>
      cases pc with
      | garbage =>
          exact ⟨rfl, rfl, fun h => absurd h (by simp)⟩
      | valid pid =>
          by_cases hl : pid ∈ live
          · have hs : stop_daemon (SysState.mk (some (PidContent.valid pid))
                live prods)
                = (true, SysState.mk none (live.erase pid) (prods.erase pid)) := by
              simp [stop_daemon, hl]
            rw [hs]
            exact ⟨rfl, rfl, fun h => absurd h (by simp)⟩
          · have hs : stop_daemon (SysState.mk (some (PidContent.valid pid))
                live prods)
                = (true, SysState.mk none live prods) := by
              simp [stop_daemon, hl]
            rw [hs]
            exact ⟨rfl, rfl, fun h => absurd h (by simp)⟩

/-- Witness for C9: stopping with no identity record is a success no-op. -/
theorem stop_C9_witness :
    stop_daemon (SysState.mk none [] []) = (true, SysState.mk none [] []) :=
  (stop_C9 (SysState.mk none [] [])).2.2 rfl

/-! ## C10: pid 0 behaves as no pid filter -/

/-- C10: passing `pid = 0` to find_process_history behaves exactly like
passing no pid at all — the filter tests `not target_pid`, and 0 is falsy
— so the resulting history is identical (only the echoed `target_pid`
field differs). -/
theorem pid_zero_C10 (buffer : List Snapshot) (name : String) :
    (find_process_history name (some 0) buffer).historyOf
      = (find_process_history name none buffer).historyOf := by
  have hfun : pidMatch (some 0) = pidMatch none := by
    funext p
    simp [pidMatch]
  have hper : perSnapshotRecords name (some 0) = perSnapshotRecords name none := by
    funext s
    simp only [perSnapshotRecords, hfun]
  unfold find_process_history
  rw [hper]
  split <;> rfl

end SysMetrics